import Mathlib

/-!
Shallow embedding of the struct binder in `bind.go` (package echo).

The binder populates a record value from a `map[string][]string` of source
data.  Reflection-based mutation is embedded as explicit state passing: every
Go function that mutates a `reflect.Value` field in place is embedded as a
function returning the new field value together with an optional error
(`Val × Option Err`), matching Go's in-place update discipline (mutations
performed before an error are kept, there is no rollback).

Go standard-library calls (`strconv.ParseInt`, `strconv.ParseUint`,
`strconv.ParseBool`, `strconv.ParseFloat`, and package `time`) are modelled
by executable Lean definitions; each model's doc comment states its scope.
-/

namespace EchoBind

/-- Errors produced by the binder.  `msg` models `errors.New` values with the
exact message string from the source; `numError` models `strconv.NumError`
(`fn` is the strconv function name, `num` the parsed string, `range` is `true`
for `ErrRange` and `false` for `ErrSyntax`); `custom` models the `error`
returned by a user type's `UnmarshalParam`, carried verbatim through the
binder; `goPanic` models a Go runtime panic (index out of range on
`inputValue[0]`, or a reflection type mismatch that cannot arise from
well-typed Go code). -/
inductive Err where
  | msg (s : String)
  | numError (fn : String) (num : String) (range : Bool)
  | custom (s : String)
  | goPanic (s : String)
  deriving DecidableEq, Repr

/-- `reflect.Kind`, restricted to the kinds the binder inspects.  `kOther`
stands for every other kind. -/
inductive GoKind where
  | kInt | kUint | kBool | kFloat | kString | kPtr | kStruct | kSlice | kOther
  deriving DecidableEq, Repr

/-- A `*time.Location` value: `time.Local`, `time.UTC`, or a named location
obtained from `time.LoadLocation` (modelled as always succeeding, recording
the name; no claim exercises an unknown zone name). -/
inductive Loc where
  | localZone | utc | named (s : String)
  deriving DecidableEq, Repr

/-- A `time.Time` value, abstracted to exactly what the binder produces: the
zero value `time.Time{}`, or the result of `time.ParseInLocation`, recorded
by its arguments.  `time.ParseInLocation` itself is modelled as always
succeeding (no claim in scope depends on a time-syntax failure). -/
inductive GoTime where
  | zero | parsed (format : String) (value : String) (loc : Loc)
  deriving DecidableEq, Repr

mutual
/-- The static type of a bindable field, covering every type shape the binder
dispatches on.  `custom` is a type implementing `BindUnmarshaler`: `run tok`
is the behaviour of `UnmarshalParam(tok)` called on a freshly allocated zero
receiver (which is how `bindUnmarshaler` always invokes it, via
`reflect.New`), returning the receiver's post-call state and the returned
error message, if any. -/
inductive Ty where
  | int (bits : Nat)
  | uint (bits : Nat)
  | bool
  | float (bits : Nat)
  | str
  | time
  | ptr (elem : Ty)
  | struct (fields : List FieldDesc)
  | slice (elem : Ty)
  | custom (run : String → String × Option String)

/-- A struct field's metadata: declared name, struct tags (as key/value
pairs, e.g. `("query", "id")` or `("time_format", "2006-01-02")`), type, and
whether `reflect.Value.CanSet` holds (exported field). -/
inductive FieldDesc where
  | mk (name : String) (tags : List (String × String)) (ty : Ty) (settable : Bool)
end

/-- A runtime value.  `vPtr none` is a nil pointer; `vCustom st` is the state
of a `BindUnmarshaler` value (as a `String`, a faithful stand-in since the
binder only moves such states around opaquely). -/
inductive Val where
  | vInt (v : Int)
  | vUint (v : Nat)
  | vBool (b : Bool)
  | vFloat (q : Rat)
  | vString (s : String)
  | vTime (t : GoTime)
  | vPtr (p : Option Val)
  | vStruct (fields : List Val)
  | vSlice (elems : List Val)
  | vCustom (st : String)

/-- Source data: the `map[string][]string` of query/form parameters, as an
association list (one arbitrary but fixed iteration order). -/
abbrev SrcData := List (String × List String)

/-! ## Models of `strconv` -/

/-- Is `c` an ASCII decimal digit? -/
def isDig (c : Char) : Bool := 48 ≤ c.toNat && c.toNat ≤ 57

/-- Numeric value of a digit character. -/
def digToNat (c : Char) : Nat := c.toNat - 48

/-- Base-10 value of a digit string (most significant first). -/
def digitsVal (ds : List Char) : Nat := ds.foldl (fun a c => 10 * a + digToNat c) 0

/-- Parse a non-empty all-digit string in base 10 (the digit-consuming core
shared by `strconv.ParseInt` and `strconv.ParseUint` at base 10; underscore
separators are only legal at base 0 in Go and hence not accepted here). -/
def parseDigits (cs : List Char) : Option Nat :=
  if cs.isEmpty then none
  else if cs.all isDig then some (digitsVal cs) else none

/-- Sign handling of `strconv.ParseInt`: an optional leading `+` or `-`,
then digits. -/
def parseIntChars (cs : List Char) : Option Int :=
  match cs with
  | [] => none
  | c :: rest =>
    if c = '+' then (parseDigits rest).map (fun n => Int.ofNat n)
    else if c = '-' then (parseDigits rest).map (fun n => -(Int.ofNat n))
    else (parseDigits (c :: rest)).map (fun n => Int.ofNat n)

/-- `bitSize = 0` means the platform `int`/`uint` width (64-bit). -/
def effBits (bitSize : Nat) : Nat := if bitSize = 0 then 64 else bitSize

/-- Model of `strconv.ParseInt(s, 10, bitSize)`: base-10 syntax with an
optional sign, and a width-appropriate range check.  Returns the exact value
on success, `ErrSyntax` or `ErrRange` (as a `NumError`) otherwise. -/
def parseInt (s : String) (bitSize : Nat) : Except Err Int :=
  match parseIntChars s.toList with
  | none => .error (.numError "ParseInt" s false)
  | some n =>
    if -((2 : Int) ^ (effBits bitSize - 1)) ≤ n ∧ n ≤ (2 : Int) ^ (effBits bitSize - 1) - 1
    then .ok n
    else .error (.numError "ParseInt" s true)

/-- Model of `strconv.ParseUint(s, 10, bitSize)`: no sign permitted. -/
def parseUint (s : String) (bitSize : Nat) : Except Err Nat :=
  match parseDigits s.toList with
  | none => .error (.numError "ParseUint" s false)
  | some n =>
    if n ≤ 2 ^ effBits bitSize - 1 then .ok n
    else .error (.numError "ParseUint" s true)

/-- Model of `strconv.ParseBool`: exactly the twelve canonical tokens. -/
def parseBool (s : String) : Except Err Bool :=
  if s = "1" ∨ s = "t" ∨ s = "T" ∨ s = "TRUE" ∨ s = "true" ∨ s = "True" then .ok true
  else if s = "0" ∨ s = "f" ∨ s = "F" ∨ s = "FALSE" ∨ s = "false" ∨ s = "False" then .ok false
  else .error (.numError "ParseBool" s false)

/-- Leading digits of `cs`, and the rest. -/
def takeDigits (cs : List Char) : List Char × List Char :=
  (cs.takeWhile isDig, cs.dropWhile isDig)

/-- Mantissa of a decimal float: digits with an optional single dot, at least
one digit overall.  Returns the exact rational value and the unconsumed
suffix. -/
def parseMantissa (cs : List Char) : Option (Rat × List Char) :=
  let (ip, rest) := takeDigits cs
  match rest with
  | '.' :: rest2 =>
    let (fp, rest3) := takeDigits rest2
    if ip.isEmpty ∧ fp.isEmpty then none
    else some ((digitsVal ip : Rat) + (digitsVal fp : Rat) / (10 : Rat) ^ fp.length, rest3)
  | _ => if ip.isEmpty then none else some ((digitsVal ip : Rat), rest)

/-- Decimal/exponent float syntax: sign, mantissa, optional `e`/`E` exponent
with its own optional sign. -/
def parseFloatChars (cs : List Char) : Option Rat :=
  let signSplit : Bool × List Char :=
    match cs with
    | '+' :: r => (false, r)
    | '-' :: r => (true, r)
    | _ => (false, cs)
  let neg := signSplit.1
  match parseMantissa signSplit.2 with
  | none => none
  | some (m, rest) =>
    match rest with
    | [] => some (if neg then -m else m)
    | c :: r2 =>
      if c = 'e' ∨ c = 'E' then
        let esplit : Bool × List Char :=
          match r2 with
          | '+' :: r => (false, r)
          | '-' :: r => (true, r)
          | _ => (false, r2)
        let (ed, r4) := takeDigits esplit.2
        if ed.isEmpty ∨ ¬ r4.isEmpty then none
        else
          let ex := digitsVal ed
          let m2 := if esplit.1 then m / (10 : Rat) ^ ex else m * (10 : Rat) ^ ex
          some (if neg then -m2 else m2)
      else none

/-- Model of `strconv.ParseFloat(s, bitSize)`, restricted to finite
decimal/exponent syntax with the exact rational value of the literal (IEEE
rounding to the requested width, hex-float syntax, `inf`/`NaN` tokens and
underscore separators are outside the model's scope; no claim in scope
depends on them). -/
def parseFloat (s : String) : Except Err Rat :=
  match parseFloatChars s.toList with
  | some q => .ok q
  | none => .error (.numError "ParseFloat" s false)

/-! ## Field metadata helpers -/

/-- `reflect.StructTag.Get`: the value for `key`, or `""` when absent. -/
def tagGet (tags : List (String × String)) (key : String) : String :=
  match tags.find? (fun kv => kv.1 == key) with
  | some kv => kv.2
  | none => ""

/-- `bindUnmarshaler(field)`: does a pointer to the field's type implement
`BindUnmarshaler`?  (`reflect.New(field.Type())` always yields an
interfaceable value, so the `CanInterface` guard in the source never fails.)
Returns the behaviour of `UnmarshalParam` on the fresh zero receiver. -/
def bindUnmarshaler (t : Ty) : Option (String → String × Option String) :=
  match t with
  | .custom run => some run
  | _ => none

/-- `reflect.Kind` of a type.  `time.Time` is a struct type, so its kind is
`kStruct`.  A `custom` type's underlying kind is modelled as `kOther` (the
binder consults a custom field's kind only on paths already intercepted by
`unmarshalField`). -/
def kindOf : Ty → GoKind
  | .int _ => .kInt
  | .uint _ => .kUint
  | .bool => .kBool
  | .float _ => .kFloat
  | .str => .kString
  | .time => .kStruct
  | .ptr _ => .kPtr
  | .struct _ => .kStruct
  | .slice _ => .kSlice
  | .custom _ => .kOther

mutual
/-- The zero value of a type (`reflect.New(t).Elem()`). -/
def zeroVal : Ty → Val
  | .int _ => .vInt 0
  | .uint _ => .vUint 0
  | .bool => .vBool false
  | .float _ => .vFloat 0
  | .str => .vString ""
  | .time => .vTime .zero
  | .ptr _ => .vPtr none
  | .struct fields => .vStruct (zeroVals fields)
  | .slice _ => .vSlice []
  | .custom _ => .vCustom ""

/-- Zero values of a field list. -/
def zeroVals : List FieldDesc → List Val
  | [] => []
  | .mk _ _ ty _ :: fs => zeroVal ty :: zeroVals fs
end

/-! ## Scalar setters

Each `set*Field` mirrors its Go counterpart: parse the token, and assign the
parsed value to the field only when `err == nil`; the pair returned is
(field value after the call, error). -/

/-- `setIntField`: empty token becomes `"0"`, then `strconv.ParseInt`. -/
def setIntField (value : String) (bitSize : Nat) (field : Val) : Val × Option Err :=
  let value := if value = "" then "0" else value
  match parseInt value bitSize with
  | .ok n => (.vInt n, none)
  | .error e => (field, some e)

/-- `setUintField`: empty token becomes `"0"`, then `strconv.ParseUint`. -/
def setUintField (value : String) (bitSize : Nat) (field : Val) : Val × Option Err :=
  let value := if value = "" then "0" else value
  match parseUint value bitSize with
  | .ok n => (.vUint n, none)
  | .error e => (field, some e)

/-- `setBoolField`: empty token becomes `"false"`, then `strconv.ParseBool`. -/
def setBoolField (value : String) (field : Val) : Val × Option Err :=
  let value := if value = "" then "false" else value
  match parseBool value with
  | .ok b => (.vBool b, none)
  | .error e => (field, some e)

/-- `setFloatField`: empty token becomes `"0.0"`, then `strconv.ParseFloat`
(the `bitSize` argument only selects IEEE rounding width in Go, which the
exact-rational model does not track). -/
def setFloatField (value : String) (bitSize : Nat) (field : Val) : Val × Option Err :=
  let _ := bitSize
  let value := if value = "" then "0.0" else value
  match parseFloat value with
  | .ok q => (.vFloat q, none)
  | .error e => (field, some e)

/-- `isUTC, _ := strconv.ParseBool(...)`: the error is discarded, a failed
parse leaves the zero value `false`. -/
def parseBoolLenient (s : String) : Bool :=
  match parseBool s with
  | .ok b => b
  | .error _ => false

/-- `setTimeField`: requires a non-empty `time_format` tag (else the error
`Blank time format`); an empty token assigns the zero `time.Time{}`;
otherwise the location is `time.Local`, switched to UTC by a truthy
`time_utc` tag and overridden by a non-empty `time_location` tag
(`time.LoadLocation` modelled as succeeding), and the token is parsed with
`time.ParseInLocation` (modelled as succeeding, recording its arguments). -/
def setTimeField (value : String) (tags : List (String × String)) (field : Val) :
    Val × Option Err :=
  let timeFormat := tagGet tags "time_format"
  if timeFormat = "" then (field, some (.msg "Blank time format"))
  else if value = "" then (.vTime .zero, none)
  else
    let l := if parseBoolLenient (tagGet tags "time_utc") then Loc.utc else Loc.localZone
    let locTag := tagGet tags "time_location"
    let l := if locTag = "" then l else Loc.named locTag
    (.vTime (.parsed timeFormat value l), none)

/-! ## The custom-unmarshal hook -/

/-- `unmarshalFieldNonPtr`: if the field's type implements `BindUnmarshaler`,
allocate a fresh zero receiver, invoke `UnmarshalParam(value)` on it, then
unconditionally `field.Set` the receiver's post-call state — the set happens
whether or not `UnmarshalParam` failed — and report `(true, err)`.  Otherwise
`(false, field unchanged, nil)`.  The triple returned is
(handled, field value after the call, error). -/
def unmarshalFieldNonPtr (t : Ty) (value : String) (field : Val) :
    Bool × Val × Option Err :=
  match bindUnmarshaler t with
  | some run =>
    let r := run value
    (true, .vCustom r.1, r.2.map Err.custom)
  | none => (false, field, none)

/-- `unmarshalFieldPtr`: a nil pointer is first initialised to a freshly
allocated zero pointee — this mutation persists even when the pointee's type
turns out not to implement `BindUnmarshaler` — then the hook is tried on the
pointee. -/
def unmarshalFieldPtr (elemT : Ty) (value : String) (field : Val) :
    Bool × Val × Option Err :=
  let cur := match field with
    | .vPtr (some p) => p
    | _ => zeroVal elemT
  let r := unmarshalFieldNonPtr elemT value cur
  (r.1, .vPtr (some r.2.1), r.2.2)

/-- `unmarshalField`: dispatch on the field's kind. -/
def unmarshalField (t : Ty) (value : String) (field : Val) : Bool × Val × Option Err :=
  match t with
  | .ptr elemT => unmarshalFieldPtr elemT value field
  | _ => unmarshalFieldNonPtr t value field

/-! ## The scalar converter -/

/-- `setWithProperType`: first the custom-unmarshal hook, then kind dispatch.
A nil pointer field is allocated and the conversion recurses into the
pointee; kinds the switch does not list (struct, slice, `time.Time`'s struct
kind, ...) yield the error `unknown type`. -/
def setWithProperType (t : Ty) (val : String) (field : Val) : Val × Option Err :=
  let r := unmarshalField t val field
  if r.1 then (r.2.1, r.2.2)
  else
    let f1 := r.2.1
    match t with
    | .ptr elemT =>
      let cur := match f1 with
        | .vPtr (some p) => p
        | _ => zeroVal elemT
      let inner := setWithProperType elemT val cur
      (.vPtr (some inner.1), inner.2)
    | .int bits => setIntField val bits f1
    | .uint bits => setUintField val bits f1
    | .bool => setBoolField val f1
    | .float bits => setFloatField val bits f1
    | .str => (.vString val, none)
    | _ => (f1, some (.msg "unknown type"))

/-- The slice-building loop of `bindData`: a fresh zero-valued slice is
filled element by element with `setWithProperType`; the first element error
aborts (the partially built slice is never assigned to the field). -/
def convertSlice (elemT : Ty) : List String → Except Err (List Val)
  | [] => .ok []
  | s :: ss =>
    match setWithProperType elemT s (zeroVal elemT) with
    | (_, some e) => .error e
    | (v, none) =>
      match convertSlice elemT ss with
      | .error e => .error e
      | .ok tl => .ok (v :: tl)

/-! ## The field resolver -/

/-- ASCII lower-casing of one character. -/
def charToLower (c : Char) : Char :=
  if 65 ≤ c.toNat ∧ c.toNat ≤ 90 then Char.ofNat (c.toNat + 32) else c

/-- Model of `strings.ToLower`, restricted to ASCII case folding (Go also
folds non-ASCII letters; field names and tags in scope are ASCII). -/
def strToLower (s : String) : String := String.mk (s.toList.map charToLower)

/-- Key resolution (`bindData` lines 136–150): exact map lookup first, then a
linear scan for the first key equal up to `strings.ToLower`. -/
def resolveValue (key : String) (data : SrcData) : Option (List String) :=
  match data.find? (fun kv => kv.1 == key) with
  | some kv => some kv.2
  | none =>
    match data.find? (fun kv => strToLower kv.1 == strToLower key) with
    | some kv => some kv.2
    | none => none

/-- Modelled from the spec: the Field Resolver rule of §4.3 as the spec words
it — "the source tag if present, else the declared field name, is the primary
lookup key"; exact lookup first, else "a case-insensitive linear scan of the
map's keys", taking "the first key whose lower-cased form equals the
lower-cased primary key".  Stated over the same association-list iteration
order as `resolveValue`; used to check the resolver against the spec's
description. -/
def resolveSpec (key : String) (data : SrcData) : Option (List String) :=
  match data.lookup key with
  | some v => some v
  | none =>
    (data.find? (fun kv => strToLower kv.1 == strToLower key)).map (fun kv => kv.2)

/-! ## The struct walker -/

/-- Outcome of handling one resolved field: `cont` (field updated, walk
continues), `halt` (field updated and the walk returns success immediately —
the `return setTimeField(...)` statement), or `fail` (walk aborts with an
error; the field holds the given value, mutations before the error being
kept). -/
inductive StepRes where
  | cont (v : Val)
  | halt (v : Val)
  | fail (v : Val) (e : Err)

/-- Handling of a field whose key resolved to `inputValue` (`bindData` lines
156–183): the custom-unmarshal hook first (on `inputValue[0]` — an empty
value slice panics, modelled as `goPanic "index out of range"`); then the
slice path; then the `time.Time` path (`return`ing also on success); else the
scalar converter on the first value.  Note: the source's line 180 spells the
time call `setTimeField(inputValue, *typeField, *structField)`, which does
not type-check in Go (`inputValue` is a `[]string` and the dereferences are
of non-pointers); the embedding takes the only type-correct reading,
`setTimeField(inputValue[0], typeField, structField)`. -/
def bindResolvedField (ty : Ty) (tags : List (String × String))
    (inputValue : List String) (v : Val) : StepRes :=
  match inputValue.head? with
  | none => .fail v (.goPanic "index out of range")
  | some v0 =>
    let r := unmarshalField ty v0 v
    if r.1 then
      match r.2.2 with
      | some err => .fail r.2.1 err
      | none => .cont r.2.1
    else
      let v1 := r.2.1
      if kindOf ty = .kSlice ∧ inputValue.length > 0 then
        match ty with
        | .slice elemT =>
          match convertSlice elemT inputValue with
          | .error err => .fail v1 err
          | .ok elems => .cont (.vSlice elems)
        | _ => .fail v1 (.goPanic "reflect type mismatch")
      else
        match ty with
        | .time =>
          match setTimeField v0 tags v1 with
          | (v2, some err) => .fail v2 err
          | (v2, none) => .halt v2
        | _ =>
          match setWithProperType ty v0 v1 with
          | (v2, some err) => .fail v2 err
          | (v2, none) => .cont v2

/-- The per-field loop of `bindData`, in declaration order.  Unsettable
fields are skipped.  A field whose mode tag is empty, whose type does not
implement `BindUnmarshaler`, and whose kind is struct, is recursed into with
the same data and mode before any key lookup (`time.Time` also has struct
kind; its three fields are unexported, so the recursive call is a no-op).
Then the key (mode tag, else field name) is resolved; an unresolved field is
skipped.  Errors abort the walk, keeping mutations already made. -/
def bindFields (data : SrcData) (tag : String) :
    List FieldDesc → List Val → List Val × Option Err
  | [], vs => (vs, none)
  | _ :: _, [] => ([], none)
  | .mk name tags ty settable :: fs, v :: vs =>
    if settable then
      if tagGet tags tag = "" ∧ (bindUnmarshaler ty).isNone = true ∧ kindOf ty = .kStruct then
        -- the recursive `b.bindData(structField.Addr().Interface(), data, tag)` call
        match ty, v with
        | .struct innerF, .vStruct innerV =>
          match bindFields data tag innerF innerV with
          | (innerV', some err) => (Val.vStruct innerV' :: vs, some err)
          | (innerV', none) =>
            let rest := bindFields data tag fs vs
            (Val.vStruct innerV' :: rest.1, rest.2)
        | .time, _ =>
          -- recursing into time.Time: no exported field, the value is untouched
          let rest := bindFields data tag fs vs
          (v :: rest.1, rest.2)
        | _, _ => (v :: vs, some (.goPanic "reflect type mismatch"))
      else
        let key := if tagGet tags tag = "" then name else tagGet tags tag
        match resolveValue key data with
        | none =>
          let rest := bindFields data tag fs vs
          (v :: rest.1, rest.2)
        | some inputValue =>
          match bindResolvedField ty tags inputValue v with
          | .fail v' e => (v' :: vs, some e)
          | .halt v' => (v' :: vs, none)
          | .cont v' =>
            let rest := bindFields data tag fs vs
            (v' :: rest.1, rest.2)
    else
      let rest := bindFields data tag fs vs
      (v :: rest.1, rest.2)

/-- `bindData(ptr, data, tag)`: fails with `binding element must be a struct`
on a non-struct target, and otherwise walks the fields.  `time.Time` is a
struct whose fields are all unexported, so it walks to an immediate
success. -/
def bindData (t : Ty) (v : Val) (data : SrcData) (tag : String) : Val × Option Err :=
  match t, v with
  | .struct fields, .vStruct vals =>
    let r := bindFields data tag fields vals
    (.vStruct r.1, r.2)
  | .time, v => (v, none)
  | .struct _, v => (v, some (.goPanic "reflect type mismatch"))
  | _, v => (v, some (.msg "binding element must be a struct"))

/-! ## Derived decimal representations (for the round-trip property) -/

/-- The character of a decimal digit. -/
def digitChr (d : Nat) : Char :=
  match d with
  | 0 => '0' | 1 => '1' | 2 => '2' | 3 => '3' | 4 => '4'
  | 5 => '5' | 6 => '6' | 7 => '7' | 8 => '8' | _ => '9'

/-- The base-10 decimal representation of a natural number (most significant
digit first). -/
def natDecimal (n : Nat) : List Char :=
  if n = 0 then ['0'] else (Nat.digits 10 n).reverse.map digitChr

/-- The base-10 decimal representation of an integer, with a leading `-` for
negative values. -/
def intDecimal (v : Int) : List Char :=
  if v < 0 then '-' :: natDecimal v.natAbs else natDecimal v.natAbs

/-- The bit sizes the binder passes to `strconv.ParseInt`/`ParseUint`
(`setWithProperType` lines 214–233). -/
def supportedBits : List Nat := [0, 8, 16, 32, 64]

/-- The scalar kinds of the `setWithProperType` switch (signed and unsigned
integers of every supported width, boolean, both float widths, string). -/
def isSupportedScalar (t : Ty) : Bool :=
  match t with
  | .int b => b == 0 || b == 8 || b == 16 || b == 32 || b == 64
  | .uint b => b == 0 || b == 8 || b == 16 || b == 32 || b == 64
  | .bool => true
  | .float b => b == 32 || b == 64
  | .str => true
  | _ => false

/-- The tokens `strconv.ParseBool` maps to `true`. -/
def trueTokens : List String := ["1", "t", "T", "TRUE", "true", "True"]

/-- The tokens `strconv.ParseBool` maps to `false`. -/
def falseTokens : List String := ["0", "f", "F", "FALSE", "false", "False"]

/-! # Theorems -/

/-- **C2.** For every timestamp-typed field whose `time_format` tag is empty,
conversion fails with the `Blank time format` (MissingTimeFormat) error
regardless of the supplied token; when the tag is non-empty and the token is
the empty string, the field is set to the zero `time.Time` value without
error. -/
theorem setTimeField_format_contract :
    ∀ (value : String) (tags : List (String × String)) (field : Val),
      (tagGet tags "time_format" = "" →
        setTimeField value tags field = (field, some (.msg "Blank time format"))) ∧
      (tagGet tags "time_format" ≠ "" →
        setTimeField "" tags field = (.vTime .zero, none)) := by
  intro value tags field
  constructor
  · intro h
    simp [setTimeField, h]
  · intro h
    simp [setTimeField, h]

/-- Witness for C2 at concrete inputs. -/
theorem setTimeField_format_contract_witness :
    setTimeField "2024-03-15" [] (Val.vInt 3) = (Val.vInt 3, some (.msg "Blank time format"))
    ∧ setTimeField "" [("time_format", "2006-01-02")] (Val.vInt 3) = (.vTime .zero, none) :=
  ⟨(setTimeField_format_contract "2024-03-15" [] (Val.vInt 3)).1 (by decide),
   (setTimeField_format_contract "" [("time_format", "2006-01-02")] (Val.vInt 3)).2 (by decide)⟩

/-- **C9.** Every built-in scalar setter (`setIntField`, `setUintField`,
`setBoolField`, `setFloatField`) leaves the target field at its prior value
whenever parsing the token fails: the field is mutated only when parsing
succeeds. -/
theorem scalar_setters_frame :
    ∀ (value : String) (bits : Nat) (field : Val),
      ((setIntField value bits field).2.isSome = true →
        (setIntField value bits field).1 = field) ∧
      ((setUintField value bits field).2.isSome = true →
        (setUintField value bits field).1 = field) ∧
      ((setBoolField value field).2.isSome = true →
        (setBoolField value field).1 = field) ∧
      ((setFloatField value bits field).2.isSome = true →
        (setFloatField value bits field).1 = field) := by
  intro value bits field
  refine ⟨?_, ?_, ?_, ?_⟩
  · simp only [setIntField]
    split <;> simp
  · simp only [setUintField]
    split <;> simp
  · simp only [setBoolField]
    split <;> simp
  · simp only [setFloatField]
    split <;> simp

/-- Witness for C9: each setter keeps the field on the failing token `"x"`. -/
theorem scalar_setters_frame_witness :
    (setIntField "x" 64 (Val.vInt 5)).1 = Val.vInt 5
    ∧ (setUintField "x" 64 (Val.vUint 5)).1 = Val.vUint 5
    ∧ (setBoolField "x" (Val.vBool true)).1 = Val.vBool true
    ∧ (setFloatField "x" 64 (Val.vFloat 5)).1 = Val.vFloat 5 :=
  ⟨(scalar_setters_frame "x" 64 (Val.vInt 5)).1 (by decide),
   (scalar_setters_frame "x" 64 (Val.vUint 5)).2.1 (by decide),
   (scalar_setters_frame "x" 64 (Val.vBool true)).2.2.1 (by decide),
   (scalar_setters_frame "x" 64 (Val.vFloat 5)).2.2.2 (by simp [setFloatField, parseFloat,
     parseFloatChars, parseMantissa, takeDigits, isDig])⟩

/-- **C7.** Boolean conversion succeeds exactly on the twelve canonical
tokens — the six true-tokens yield `true`, the six false-tokens yield
`false`, the empty token is treated as `false` — and every other token
yields the `ParseBool` syntax error. -/
theorem setBoolField_token_set :
    ∀ (s : String) (field : Val),
      (s ∈ trueTokens → setBoolField s field = (.vBool true, none)) ∧
      ((s ∈ falseTokens ∨ s = "") → setBoolField s field = (.vBool false, none)) ∧
      (s ∉ trueTokens → s ∉ falseTokens → s ≠ "" →
        setBoolField s field = (field, some (.numError "ParseBool" s false))) := by
  intro s field
  refine ⟨?_, ?_, ?_⟩
  · intro h
    simp only [trueTokens, List.mem_cons, List.not_mem_nil, or_false] at h
    rcases h with rfl | rfl | rfl | rfl | rfl | rfl <;> rfl
  · intro h
    rcases h with h | rfl
    · simp only [falseTokens, List.mem_cons, List.not_mem_nil, or_false] at h
      rcases h with rfl | rfl | rfl | rfl | rfl | rfl <;> rfl
    · rfl
  · intro h1 h2 h3
    simp only [trueTokens, List.mem_cons, List.not_mem_nil, or_false, not_or] at h1
    simp only [falseTokens, List.mem_cons, List.not_mem_nil, or_false, not_or] at h2
    obtain ⟨n1, n2, n3, n4, n5, n6⟩ := h1
    obtain ⟨m1, m2, m3, m4, m5, m6⟩ := h2
    simp [setBoolField, parseBool, h3, n1, n2, n3, n4, n5, n6, m1, m2, m3, m4, m5, m6]

/-- Witness for C7 at `"t"`, `""`, and `"yes"`. -/
theorem setBoolField_token_set_witness :
    setBoolField "t" (Val.vInt 0) = (.vBool true, none)
    ∧ setBoolField "" (Val.vInt 0) = (.vBool false, none)
    ∧ setBoolField "yes" (Val.vInt 0) = (Val.vInt 0, some (.numError "ParseBool" "yes" false)) :=
  ⟨(setBoolField_token_set "t" (Val.vInt 0)).1 (by decide),
   (setBoolField_token_set "" (Val.vInt 0)).2.1 (Or.inr rfl),
   (setBoolField_token_set "yes" (Val.vInt 0)).2.2 (by decide) (by decide) (by decide)⟩

/-- **C3.** For every supported scalar kind, converting the empty-string
token yields that kind's zero value and never an error. -/
theorem convert_empty_token_zero :
    ∀ (t : Ty), isSupportedScalar t = true → ∀ (field : Val),
      setWithProperType t "" field = (zeroVal t, none) := by
  intro t h field
  cases t with
  | int b =>
    simp only [isSupportedScalar, Bool.or_eq_true, beq_iff_eq] at h
    rcases h with ((((rfl | rfl) | rfl) | rfl) | rfl) <;> rfl
  | uint b =>
    simp only [isSupportedScalar, Bool.or_eq_true, beq_iff_eq] at h
    rcases h with ((((rfl | rfl) | rfl) | rfl) | rfl) <;> rfl
  | bool => rfl
  | float b =>
    simp only [isSupportedScalar, Bool.or_eq_true, beq_iff_eq] at h
    rcases h with rfl | rfl <;>
      simp [setWithProperType, unmarshalField, unmarshalFieldNonPtr, bindUnmarshaler,
        setFloatField, parseFloat, parseFloatChars, parseMantissa, takeDigits, digitsVal,
        digToNat, isDig, zeroVal]
  | str => rfl
  | time => simp [isSupportedScalar] at h
  | ptr e => simp [isSupportedScalar] at h
  | struct fs => simp [isSupportedScalar] at h
  | slice e => simp [isSupportedScalar] at h
  | custom run => simp [isSupportedScalar] at h

/-- Witness for C3 at the `int64` kind. -/
theorem convert_empty_token_zero_witness :
    setWithProperType (.int 64) "" (Val.vInt 3) = (Val.vInt 0, none) :=
  convert_empty_token_zero (.int 64) (by decide) (Val.vInt 3)

/-- **C1 (amended).** For a field whose type implements `BindUnmarshaler`,
the walker always overwrites the field with the unmarshal receiver's
post-call state — the receiver starts at the type's zero value — and
propagates the hook's error verbatim when there is one.  In particular, on
failure the field does *not* retain its pre-call value: `unmarshalFieldNonPtr`
executes `field.Set(...)` unconditionally, after `UnmarshalParam` has already
returned its error. -/
theorem custom_hook_overwrites :
    ∀ (run : String → String × Option String) (name tok tag : String) (field : Val),
      bindData (.struct [.mk name [] (.custom run) true]) (.vStruct [field])
        [(name, [tok])] tag
      = (.vStruct [.vCustom (run tok).1], ((run tok).2).map Err.custom) := by
  intro run name tok tag field
  rcases hr : run tok with ⟨st, e⟩
  cases e <;>
    simp [bindData, bindFields, bindResolvedField, resolveValue, tagGet, bindUnmarshaler,
      kindOf, unmarshalField, unmarshalFieldNonPtr, hr]

/-- Counterexample to **C1** as stated: a `BindUnmarshaler` whose hook fails
without touching its receiver.  The hook's error is propagated, but the
field, whose pre-call value was `vCustom "x"`, has been overwritten with the
zero receiver's state `vCustom ""`. -/
theorem custom_hook_counterexample :
    bindData (.struct [.mk "F" [] (.custom (fun _ => ("", some "boom"))) true])
      (.vStruct [.vCustom "x"]) [("F", ["tok"])] "query"
    = (.vStruct [.vCustom ""], some (.custom "boom"))
    ∧ Val.vCustom "" ≠ Val.vCustom "x" := by
  constructor
  · simp +decide [bindData, bindFields, bindResolvedField, resolveValue, tagGet,
      bindUnmarshaler, kindOf, unmarshalField, unmarshalFieldNonPtr]
  · simp

/-- **C5.** For every settable field with an empty mode tag whose type is a
record (struct kind) not implementing `BindUnmarshaler`, the walker recurses
into the field in place — same data, same mode — before any key lookup, and
then moves to the next field (a recursion error aborts the walk); a flat
source map matching the nested record's own field names thus populates the
nested fields without dotted keys, and no direct value lookup is done for the
outer field itself (the right-hand side of the equation consults only the
recursive `bindData` call and the rest of the walk). -/
theorem untagged_struct_recursion :
    (∀ (name : String) (tags : List (String × String)) (ty : Ty) (fs : List FieldDesc)
       (v : Val) (vs : List Val) (data : SrcData) (tag : String),
       tagGet tags tag = "" → bindUnmarshaler ty = none → kindOf ty = .kStruct →
       bindFields data tag (.mk name tags ty true :: fs) (v :: vs)
       = (match bindData ty v data tag with
          | (v', some err) => (v' :: vs, some err)
          | (v', none) =>
            let rest := bindFields data tag fs vs
            (v' :: rest.1, rest.2)))
    ∧ bindData (.struct [.mk "C" [] (.struct [.mk "Z" [] (.int 64) true]) true])
        (.vStruct [.vStruct [.vInt 0]]) [("Z", ["9"])] "query"
      = (.vStruct [.vStruct [.vInt 9]], none) := by
  constructor
  · intro name tags ty fs v vs data tag h1 h2 h3
    cases ty <;> simp only [kindOf] at h3 <;> try exact absurd h3 (by decide)
    · -- ty = .time: the recursive bindData call is a no-op success
      cases v <;> simp [bindFields, bindData, bindUnmarshaler, kindOf, h1]
    · -- ty = .struct innerF
      rename_i innerF
      cases v with
      | vStruct innerV =>
        rcases hw : bindFields data tag innerF innerV with ⟨innerV', e⟩
        cases e <;> simp [bindFields, bindData, bindUnmarshaler, kindOf, h1, hw]
      | _ => simp [bindFields, bindData, bindUnmarshaler, kindOf, h1]
  · simp +decide [bindData, bindFields, bindResolvedField, resolveValue, tagGet,
      bindUnmarshaler, kindOf, unmarshalField, unmarshalFieldNonPtr, setWithProperType,
      setIntField, parseInt, parseIntChars, parseDigits, digitsVal, digToNat, isDig, effBits]

/-- Witness for C5's quantified part at a concrete nested record. -/
theorem untagged_struct_recursion_witness :
    bindFields [("Z", ["9"])] "query"
      [.mk "C" [] (.struct [.mk "Z" [] (.int 64) true]) true] [.vStruct [.vInt 0]]
    = (match bindData (.struct [.mk "Z" [] (.int 64) true]) (.vStruct [.vInt 0])
          [("Z", ["9"])] "query" with
       | (v', some err) => (v' :: [], some err)
       | (v', none) =>
         let rest := bindFields [("Z", ["9"])] "query" [] []
         (v' :: rest.1, rest.2)) :=
  untagged_struct_recursion.1 "C" [] (.struct [.mk "Z" [] (.int 64) true]) [] (.vStruct [.vInt 0])
    [] [("Z", ["9"])] "query" rfl rfl rfl

/-! ### Decimal round-trip lemmas (C6) -/

/-- Digit characters map back to their digit value. -/
theorem digToNat_digitChr {d : Nat} (h : d < 10) : digToNat (digitChr d) = d := by
  interval_cases d <;> rfl

/-- Digit characters satisfy the digit test. -/
theorem isDig_digitChr {d : Nat} (h : d < 10) : isDig (digitChr d) = true := by
  interval_cases d <;> rfl

/-- Folding the decimal accumulator over the reversed digit list recovers the
number (with an arbitrary accumulator seed). -/
theorem foldl_digits (ds : List Nat) (h : ∀ d ∈ ds, d < 10) (a : Nat) :
    List.foldl (fun acc c => 10 * acc + digToNat c) a (ds.reverse.map digitChr)
    = a * 10 ^ ds.length + Nat.ofDigits 10 ds := by
  induction ds generalizing a with
  | nil => simp [Nat.ofDigits]
  | cons d tl ih =>
    have hd : d < 10 := h d (List.mem_cons_self d tl)
    have htl : ∀ x ∈ tl, x < 10 := fun x hx => h x (List.mem_cons_of_mem d hx)
    simp only [List.reverse_cons, List.map_append, List.foldl_append, List.map_cons,
      List.map_nil, List.foldl_cons, List.foldl_nil, List.length_cons]
    rw [ih htl a, digToNat_digitChr hd, Nat.ofDigits_cons]
    ring

/-- `natDecimal` is never the empty list. -/
theorem natDecimal_ne_nil (n : Nat) : natDecimal n ≠ [] := by
  unfold natDecimal
  split
  · simp
  · rename_i h0
    have : Nat.digits 10 n ≠ [] := Nat.digits_ne_nil_iff_ne_zero.mpr h0
    simp [this]

/-- Every character of `natDecimal` is a decimal digit. -/
theorem natDecimal_all_isDig (n : Nat) : ∀ c ∈ natDecimal n, isDig c = true := by
  unfold natDecimal
  split
  · intro c hc
    simp only [List.mem_singleton] at hc
    subst hc
    rfl
  · intro c hc
    rcases List.mem_map.mp hc with ⟨d, hd, rfl⟩
    exact isDig_digitChr (Nat.digits_lt_base (by norm_num) (List.mem_reverse.mp hd))

/-- The digit parser inverts `natDecimal`. -/
theorem parseDigits_natDecimal (n : Nat) : parseDigits (natDecimal n) = some n := by
  by_cases h0 : n = 0
  · subst h0
    rfl
  · have hne := natDecimal_ne_nil n
    have hall := natDecimal_all_isDig n
    unfold parseDigits
    rw [if_neg (by simpa [List.isEmpty_iff] using hne),
      if_pos (List.all_eq_true.mpr (fun c hc => hall c hc))]
    unfold natDecimal
    rw [if_neg h0]
    unfold digitsVal
    rw [foldl_digits _ (fun d hd => Nat.digits_lt_base (by norm_num) hd) 0,
      Nat.ofDigits_digits]
    simp

/-- The signed parser inverts `intDecimal`. -/
theorem parseIntChars_intDecimal (v : Int) : parseIntChars (intDecimal v) = some v := by
  by_cases hv : v < 0
  · unfold intDecimal
    rw [if_pos hv]
    have hstep : parseIntChars ('-' :: natDecimal v.natAbs)
        = (parseDigits (natDecimal v.natAbs)).map (fun n => -(Int.ofNat n)) := rfl
    rw [hstep, parseDigits_natDecimal]
    simp only [Option.map_some', Int.ofNat_eq_natCast]
    congr 1
    omega
  · unfold intDecimal
    rw [if_neg hv]
    rcases hl : natDecimal v.natAbs with _ | ⟨c, cs⟩
    · exact absurd hl (natDecimal_ne_nil _)
    · have hc : isDig c = true := by
        have := natDecimal_all_isDig v.natAbs
        rw [hl] at this
        exact this c (List.mem_cons_self c cs)
      have hcp : ¬ c = '+' := by
        intro h
        subst h
        exact absurd hc (by decide)
      have hcm : ¬ c = '-' := by
        intro h
        subst h
        exact absurd hc (by decide)
      have hstep : parseIntChars (c :: cs)
          = (parseDigits (c :: cs)).map (fun n => Int.ofNat n) := by
        rw [parseIntChars]
        rw [if_neg hcp, if_neg hcm]
      rw [hstep, ← hl, parseDigits_natDecimal]
      simp only [Option.map_some', Int.ofNat_eq_natCast]
      congr 1
      omega

/-- **C6.** For every supported integer width, signed or unsigned, and every
value in that width's range, converting the base-10 decimal string
representation of the value succeeds and stores exactly that value in the
field.  (`effBits` maps bit size 0 to the 64-bit platform width; the signed
range is `[-2^(b-1), 2^(b-1)-1]`, the unsigned range `[0, 2^b-1]`.) -/
theorem decimal_round_trip :
    (∀ bits ∈ supportedBits, ∀ (v : Int) (field : Val),
       -((2 : Int) ^ (effBits bits - 1)) ≤ v → v ≤ (2 : Int) ^ (effBits bits - 1) - 1 →
       setWithProperType (.int bits) (String.mk (intDecimal v)) field = (.vInt v, none))
    ∧ (∀ bits ∈ supportedBits, ∀ (n : Nat) (field : Val),
       n ≤ 2 ^ effBits bits - 1 →
       setWithProperType (.uint bits) (String.mk (natDecimal n)) field = (.vUint n, none)) := by
  constructor
  · intro bits _ v field hlo hhi
    have hne : intDecimal v ≠ [] := by
      unfold intDecimal
      split
      · simp
      · exact natDecimal_ne_nil _
    have hnemp : ¬ String.mk (intDecimal v) = "" := by
      intro h
      exact hne (congrArg String.data h)
    simp only [setWithProperType, unmarshalField, unmarshalFieldNonPtr, bindUnmarshaler,
      setIntField, if_neg hnemp]
    have hl : (String.mk (intDecimal v)).toList = intDecimal v := rfl
    rw [parseInt, hl, parseIntChars_intDecimal]
    simp [hlo, hhi]
  · intro bits _ n field hhi
    have hnemp : ¬ String.mk (natDecimal n) = "" := by
      intro h
      exact natDecimal_ne_nil n (congrArg String.data h)
    simp only [setWithProperType, unmarshalField, unmarshalFieldNonPtr, bindUnmarshaler,
      setUintField, if_neg hnemp]
    have hl : (String.mk (natDecimal n)).toList = natDecimal n := rfl
    rw [parseUint, hl, parseDigits_natDecimal]
    simp [hhi]

/-! ### Field resolution (C4, C8) -/

/-- Association-list `lookup` coincides with `find?` on the key. -/
theorem lookup_eq_find (key : String) (data : SrcData) :
    data.lookup key = (data.find? (fun kv => kv.1 == key)).map (fun kv => kv.2) := by
  induction data with
  | nil => rfl
  | cons kv tl ih =>
    rcases kv with ⟨k, v⟩
    by_cases h : k = key
    · subst h
      simp [List.lookup, List.find?]
    · have h1 : (key == k) = false := beq_eq_false_iff_ne.mpr (fun e => h e.symm)
      have h2 : (k == key) = false := beq_eq_false_iff_ne.mpr h
      simp [List.lookup, List.find?, h1, h2, ih]

/-- One step of the walker on a field that does not take the struct-recursion
branch and whose key does not resolve: the field is skipped (kept as is,
whether or not it is settable) and the walk continues with the rest. -/
theorem bindFields_skip (data : SrcData) (tag name : String)
    (tags : List (String × String)) (ty : Ty) (st : Bool) (fs : List FieldDesc)
    (v : Val) (vs : List Val)
    (h1 : ¬ (tagGet tags tag = "" ∧ (bindUnmarshaler ty).isNone = true ∧ kindOf ty = .kStruct))
    (h2 : resolveValue (if tagGet tags tag = "" then name else tagGet tags tag) data = none) :
    bindFields data tag (.mk name tags ty st :: fs) (v :: vs)
    = (v :: (bindFields data tag fs vs).1, (bindFields data tag fs vs).2) := by
  cases st
  · rw [bindFields.eq_def]
    simp
  · rw [bindFields.eq_def]
    simp [h1, h2]
    intro ha hb hc
    exact absurd ⟨ha, by simp [hb], hc⟩ h1

/-- **C4 (amended).** The lookup key is the field's mode tag when non-empty,
else the declared field name; an absent key falls back to the first key equal
up to lower-casing (the resolver refines the spec's §4.3 rule, first
conjunct); a field whose key resolves to nothing is skipped — except for a
field with an empty mode tag whose type is a non-custom record (struct kind),
which is recursed into instead of being looked up.  Third conjunct: the
claim's example — a field named `name` with no tag is populated from the
source key `"Name"`. -/
theorem field_resolution :
    (∀ (key : String) (data : SrcData), resolveValue key data = resolveSpec key data)
    ∧ (∀ (name : String) (tags : List (String × String)) (ty : Ty) (v : Val)
         (data : SrcData) (tag : String),
         ¬ (tagGet tags tag = "" ∧ (bindUnmarshaler ty).isNone = true ∧
            kindOf ty = .kStruct) →
         resolveValue (if tagGet tags tag = "" then name else tagGet tags tag) data = none →
         bindFields data tag [.mk name tags ty true] [v] = ([v], none))
    ∧ (∀ (s : String) (v0 : Val),
         bindFields [("Name", [s])] "query" [.mk "name" [] .str true] [v0]
         = ([.vString s], none)) := by
  refine ⟨?_, ?_, ?_⟩
  · intro key data
    unfold resolveValue resolveSpec
    rw [lookup_eq_find]
    cases hf : data.find? (fun kv => kv.1 == key) <;>
      cases hg : data.find? (fun kv => strToLower kv.1 == strToLower key) <;> simp
  · intro name tags ty v data tag h1 h2
    rw [bindFields_skip data tag name tags ty true [] v [] h1 h2]
    simp [bindFields]
  · intro s v0
    simp +decide [bindFields, bindResolvedField, resolveValue, tagGet, bindUnmarshaler,
      kindOf, unmarshalField, unmarshalFieldNonPtr, setWithProperType]

/-- Witness for C4's quantified parts at concrete inputs. -/
theorem field_resolution_witness :
    resolveValue "id" [("uid", ["7"])] = resolveSpec "id" [("uid", ["7"])]
    ∧ bindFields [("uid", ["7"])] "query" [.mk "id" [] (.int 64) true] [.vInt 3]
      = ([.vInt 3], none) :=
  ⟨field_resolution.1 "id" [("uid", ["7"])],
   field_resolution.2.1 "id" [] (.int 64) (.vInt 3) [("uid", ["7"])] "query"
     (by decide) (by decide)⟩

/-- Counterexample to **C4** as stated: a record-typed field (`Inner`) with
no tag, for which no source key resolves (neither `"Inner"` nor a
case-insensitive match), is nevertheless *not* skipped — the walker recurses
into it and its nested field is modified. -/
theorem field_resolution_counterexample :
    resolveValue "Inner" [("X", ["5"])] = none
    ∧ bindData (.struct [.mk "Inner" [] (.struct [.mk "X" [] (.int 64) true]) true])
        (.vStruct [.vStruct [.vInt 7]]) [("X", ["5"])] "query"
      = (.vStruct [.vStruct [.vInt 5]], none)
    ∧ Val.vStruct [Val.vInt 5] ≠ Val.vStruct [Val.vInt 7] := by
  refine ⟨by decide, ?_, by simp⟩
  simp +decide [bindData, bindFields, bindResolvedField, resolveValue, tagGet,
    bindUnmarshaler, kindOf, unmarshalField, unmarshalFieldNonPtr, setWithProperType,
    setIntField, parseInt, parseIntChars, parseDigits, digitsVal, digToNat, isDig, effBits]

/-- Shape of one walker step: the head field maps to some value, and the tail
of the result is either the untouched remaining values (the walk stopped at
the head, by error or by a successful time-field bind) or the recursive walk
of the remaining fields. -/
theorem bindFields_cons_shape (data : SrcData) (tag : String) (f : FieldDesc)
    (fs : List FieldDesc) (v : Val) (vs : List Val) :
    ∃ hv tl e, bindFields data tag (f :: fs) (v :: vs) = (hv :: tl, e) ∧
      (tl = vs ∨ tl = (bindFields data tag fs vs).1) := by
  rcases f with ⟨name, tags, ty, st⟩
  rw [bindFields.eq_def]
  dsimp only
  repeat' split
  all_goals first
    | exact ⟨_, _, _, rfl, Or.inl rfl⟩
    | exact ⟨_, _, _, rfl, Or.inr rfl⟩

/-- A field that neither recurses (untagged non-custom struct) nor resolves a
key keeps its value at its position, whatever happens to the other fields. -/
theorem bindFields_unresolved_frame :
    ∀ (fields : List FieldDesc) (vals : List Val) (data : SrcData) (tag : String) (i : Nat)
      (name : String) (tags : List (String × String)) (ty : Ty) (st : Bool),
      fields.get? i = some (.mk name tags ty st) →
      ¬ (tagGet tags tag = "" ∧ (bindUnmarshaler ty).isNone = true ∧
         kindOf ty = .kStruct) →
      resolveValue (if tagGet tags tag = "" then name else tagGet tags tag) data = none →
      (bindFields data tag fields vals).1.get? i = vals.get? i := by
  intro fields
  induction fields with
  | nil =>
    intro vals data tag i name tags ty st hget
    simp at hget
  | cons f fs ih =>
    intro vals data tag i name tags ty st hget h1 h2
    cases vals with
    | nil =>
      rcases f with ⟨n', t', ty', st'⟩
      rw [bindFields.eq_def]
    | cons v vs =>
      cases i with
      | zero =>
        simp only [List.get?_cons_zero, Option.some.injEq] at hget
        subst hget
        rw [bindFields_skip data tag name tags ty st fs v vs h1 h2]
        rfl
      | succ i =>
        have hget' : fs.get? i = some (.mk name tags ty st) := by simpa using hget
        obtain ⟨hv, tl, e, heq, hcase⟩ := bindFields_cons_shape data tag f fs v vs
        rw [heq]
        rcases hcase with rfl | rfl
        · rfl
        · simpa using ih vs data tag i name tags ty st hget' h1 h2

/-- **C8 (amended).** Any field that reaches the value-lookup step (i.e. is
not an untagged non-custom record-typed field, which is recursed into
instead) and for which no key resolves — neither exactly nor case-
insensitively — keeps its pre-call value at its position in the result,
whatever happens elsewhere in the walk (first conjunct); and binding a
two-field record `{A, B}` from a map whose only key matches `A` (with `A`'s
token converting) succeeds and leaves `B` unchanged (second conjunct). -/
theorem partial_binding :
    (∀ (fields : List FieldDesc) (vals : List Val) (data : SrcData) (tag : String) (i : Nat)
       (name : String) (tags : List (String × String)) (ty : Ty) (st : Bool),
       fields.get? i = some (.mk name tags ty st) →
       ¬ (tagGet tags tag = "" ∧ (bindUnmarshaler ty).isNone = true ∧
          kindOf ty = .kStruct) →
       resolveValue (if tagGet tags tag = "" then name else tagGet tags tag) data = none →
       (bindFields data tag fields vals).1.get? i = vals.get? i)
    ∧ (∀ (nA nB : String) (a0 b0 : Int),
       strToLower nA ≠ strToLower nB →
       bindFields [(nA, ["42"])] "query"
         [.mk nA [] (.int 64) true, .mk nB [] (.int 64) true] [.vInt a0, .vInt b0]
       = ([.vInt 42, .vInt b0], none)) := by
  constructor
  · exact bindFields_unresolved_frame
  · intro nA nB a0 b0 h
    have e1 : nA ≠ nB := fun e => h (by rw [e])
    have h1 : (nA == nB) = false := beq_eq_false_iff_ne.mpr e1
    have h2 : (strToLower nA == strToLower nB) = false := beq_eq_false_iff_ne.mpr h
    simp +decide [bindFields, bindResolvedField, resolveValue, tagGet, bindUnmarshaler,
      kindOf, unmarshalField, unmarshalFieldNonPtr, setWithProperType, setIntField,
      parseInt, parseIntChars, parseDigits, digitsVal, digToNat, isDig, effBits,
      List.find?, h1, h2]

/-- Witness for C8 at concrete inputs (an unresolved string field in a
one-field record, and the concrete `{A, B}` scenario). -/
theorem partial_binding_witness :
    (bindFields [("B", ["1"])] "query" [.mk "A" [] .str true] [.vString "x"]).1.get? 0
      = [Val.vString "x"].get? 0
    ∧ bindFields [("A", ["42"])] "query"
        [.mk "A" [] (.int 64) true, .mk "B" [] (.int 64) true] [.vInt 7, .vInt 9]
      = ([.vInt 42, .vInt 9], none) :=
  ⟨partial_binding.1 [.mk "A" [] .str true] [.vString "x"] [("B", ["1"])] "query" 0
     "A" [] .str true rfl (by decide) (by decide),
   partial_binding.2 "A" "B" 7 9 (by decide)⟩

/-- Counterexample to **C8** as stated: the record-typed field `Pt` has no
resolving key (`"Y"` matches neither `"Pt"` nor its lower-casing), yet after
a successful bind it does not retain its pre-call value — the walker recursed
into it. -/
theorem partial_binding_counterexample :
    resolveValue "Pt" [("Y", ["3"])] = none
    ∧ bindData (.struct [.mk "Pt" [] (.struct [.mk "Y" [] (.int 64) true]) true])
        (.vStruct [.vStruct [.vInt 1]]) [("Y", ["3"])] "query"
      = (.vStruct [.vStruct [.vInt 3]], none)
    ∧ Val.vStruct [Val.vInt 3] ≠ Val.vStruct [Val.vInt 1] := by
  refine ⟨by decide, ?_, by simp⟩
  simp +decide [bindData, bindFields, bindResolvedField, resolveValue, tagGet,
    bindUnmarshaler, kindOf, unmarshalField, unmarshalFieldNonPtr, setWithProperType,
    setIntField, parseInt, parseIntChars, parseDigits, digitsVal, digToNat, isDig, effBits]

/-- Witness for C6 at `int8` with `-128` and `uint8` with `255`. -/
theorem decimal_round_trip_witness :
    setWithProperType (.int 8) (String.mk (intDecimal (-128))) (Val.vInt 0)
      = (.vInt (-128), none)
    ∧ setWithProperType (.uint 8) (String.mk (natDecimal 255)) (Val.vUint 0)
      = (.vUint 255, none) :=
  ⟨decimal_round_trip.1 8 (by decide) (-128) (Val.vInt 0) (by decide) (by decide),
   decimal_round_trip.2 8 (by decide) 255 (Val.vUint 0) (by decide)⟩

/-! ### Bounds of the walker's element accesses (C10) -/

/-- `parseInt` fails only with `NumError` values. -/
theorem parseInt_error_shape (s : String) (bits : Nat) (e : Err)
    (h : parseInt s bits = .error e) : ∃ rng, e = .numError "ParseInt" s rng := by
  unfold parseInt at h
  split at h
  · injection h with h2
    exact ⟨false, h2.symm⟩
  · split at h
    · exact absurd h (by simp)
    · injection h with h2
      exact ⟨true, h2.symm⟩

/-- `parseUint` fails only with `NumError` values. -/
theorem parseUint_error_shape (s : String) (bits : Nat) (e : Err)
    (h : parseUint s bits = .error e) : ∃ rng, e = .numError "ParseUint" s rng := by
  unfold parseUint at h
  split at h
  · injection h with h2
    exact ⟨false, h2.symm⟩
  · split at h
    · exact absurd h (by simp)
    · injection h with h2
      exact ⟨true, h2.symm⟩

/-- `parseBool` fails only with `NumError` values. -/
theorem parseBool_error_shape (s : String) (e : Err)
    (h : parseBool s = .error e) : e = .numError "ParseBool" s false := by
  unfold parseBool at h
  split at h
  · exact absurd h (by simp)
  · split at h
    · exact absurd h (by simp)
    · injection h with h2
      exact h2.symm

/-- `parseFloat` fails only with `NumError` values. -/
theorem parseFloat_error_shape (s : String) (e : Err)
    (h : parseFloat s = .error e) : e = .numError "ParseFloat" s false := by
  unfold parseFloat at h
  split at h
  · exact absurd h (by simp)
  · injection h with h2
    exact h2.symm

/-- `setIntField` never reports a Go panic. -/
theorem setIntField_no_goPanic (value : String) (bits : Nat) (field : Val) (s : String) :
    (setIntField value bits field).2 ≠ some (.goPanic s) := by
  simp only [setIntField]
  rcases h : parseInt (if value = "" then "0" else value) bits with e | n
  · rcases parseInt_error_shape _ _ _ h with ⟨rng, rfl⟩
    simp
  · simp

/-- `setUintField` never reports a Go panic. -/
theorem setUintField_no_goPanic (value : String) (bits : Nat) (field : Val) (s : String) :
    (setUintField value bits field).2 ≠ some (.goPanic s) := by
  simp only [setUintField]
  rcases h : parseUint (if value = "" then "0" else value) bits with e | n
  · rcases parseUint_error_shape _ _ _ h with ⟨rng, rfl⟩
    simp
  · simp

/-- `setBoolField` never reports a Go panic. -/
theorem setBoolField_no_goPanic (value : String) (field : Val) (s : String) :
    (setBoolField value field).2 ≠ some (.goPanic s) := by
  simp only [setBoolField]
  rcases h : parseBool (if value = "" then "false" else value) with e | b
  · rcases parseBool_error_shape _ _ h with rfl
    simp
  · simp

/-- `setFloatField` never reports a Go panic. -/
theorem setFloatField_no_goPanic (value : String) (bits : Nat) (field : Val) (s : String) :
    (setFloatField value bits field).2 ≠ some (.goPanic s) := by
  simp only [setFloatField]
  rcases h : parseFloat (if value = "" then "0.0" else value) with e | q
  · rcases parseFloat_error_shape _ _ h with rfl
    simp
  · simp

/-- `setTimeField` never reports a Go panic. -/
theorem setTimeField_no_goPanic (value : String) (tags : List (String × String))
    (field : Val) (s : String) :
    (setTimeField value tags field).2 ≠ some (.goPanic s) := by
  simp only [setTimeField]
  split
  · simp
  · split <;> simp

/-- The custom-unmarshal hook reports only hook errors, never a Go panic. -/
theorem unmarshalField_no_goPanic (t : Ty) (v : String) (f : Val) (s : String) :
    (unmarshalField t v f).2.2 ≠ some (.goPanic s) := by
  cases t with
  | ptr elemT =>
    simp only [unmarshalField, unmarshalFieldPtr, unmarshalFieldNonPtr]
    rcases hbu : bindUnmarshaler elemT with _ | run
    · simp
    · cases hrv : (run v).2 <;> simp [hrv]
  | custom run =>
    simp only [unmarshalField, unmarshalFieldNonPtr, bindUnmarshaler]
    cases hrv : (run v).2 <;> simp [hrv]
  | _ => simp [unmarshalField, unmarshalFieldNonPtr, bindUnmarshaler]

/-- `setWithProperType` never reports a Go panic (auxiliary form, by strong
induction on the size of the type for the pointer recursion). -/
theorem setWithProperType_no_goPanic_aux :
    ∀ (N : Nat) (t : Ty), sizeOf t ≤ N → ∀ (v : String) (f : Val) (s : String),
      (setWithProperType t v f).2 ≠ some (.goPanic s) := by
  intro N
  induction N with
  | zero =>
    intro t ht
    exact absurd ht (by cases t <;> simp)
  | succ N ih =>
    intro t ht v f s
    cases t with
    | ptr elemT =>
      have helem : sizeOf elemT ≤ N := by
        simp at ht
        omega
      rw [setWithProperType.eq_def]
      dsimp only
      rcases hbu : bindUnmarshaler elemT with _ | run
      · simp only [unmarshalField, unmarshalFieldPtr, unmarshalFieldNonPtr, hbu]
        simp only [Bool.false_eq_true, if_false]
        exact ih elemT helem v _ s
      · simp only [unmarshalField, unmarshalFieldPtr, unmarshalFieldNonPtr, hbu]
        cases hrv : (run v).2 <;> simp [hrv]
    | custom run =>
      simp only [setWithProperType, unmarshalField, unmarshalFieldNonPtr, bindUnmarshaler]
      cases hrv : (run v).2 <;> simp [hrv]
    | int bits =>
      simp only [setWithProperType, unmarshalField, unmarshalFieldNonPtr, bindUnmarshaler]
      simp only [Bool.false_eq_true, if_false]
      exact setIntField_no_goPanic v bits f s
    | uint bits =>
      simp only [setWithProperType, unmarshalField, unmarshalFieldNonPtr, bindUnmarshaler]
      simp only [Bool.false_eq_true, if_false]
      exact setUintField_no_goPanic v bits f s
    | bool =>
      simp only [setWithProperType, unmarshalField, unmarshalFieldNonPtr, bindUnmarshaler]
      simp only [Bool.false_eq_true, if_false]
      exact setBoolField_no_goPanic v f s
    | float bits =>
      simp only [setWithProperType, unmarshalField, unmarshalFieldNonPtr, bindUnmarshaler]
      simp only [Bool.false_eq_true, if_false]
      exact setFloatField_no_goPanic v bits f s
    | str => simp [setWithProperType, unmarshalField, unmarshalFieldNonPtr, bindUnmarshaler]
    | time => simp [setWithProperType, unmarshalField, unmarshalFieldNonPtr, bindUnmarshaler]
    | struct fields =>
      simp [setWithProperType, unmarshalField, unmarshalFieldNonPtr, bindUnmarshaler]
    | slice elemT =>
      simp [setWithProperType, unmarshalField, unmarshalFieldNonPtr, bindUnmarshaler]

/-- `setWithProperType` never reports a Go panic. -/
theorem setWithProperType_no_goPanic (t : Ty) (v : String) (f : Val) (s : String) :
    (setWithProperType t v f).2 ≠ some (.goPanic s) :=
  setWithProperType_no_goPanic_aux (sizeOf t) t le_rfl v f s

/-- The slice-building loop never reports a Go panic (its per-index accesses
are structural over the value list, hence in bounds by construction). -/
theorem convertSlice_no_goPanic (elemT : Ty) (l : List String) (s : String) :
    convertSlice elemT l ≠ .error (.goPanic s) := by
  induction l with
  | nil => simp [convertSlice]
  | cons x xs ih =>
    simp only [convertSlice]
    rcases hw : setWithProperType elemT x (zeroVal elemT) with ⟨v1, e1⟩
    cases e1 with
    | some e =>
      intro hco
      simp only at hco
      injection hco with he
      have := setWithProperType_no_goPanic elemT x (zeroVal elemT) s
      rw [hw] at this
      exact this (by rw [he])
    | none =>
      rcases hc : convertSlice elemT xs with e2 | tl
      · rw [hc] at ih
        simpa using ih
      · simp

/-- A value list produced by the resolver is one of the map's value lists. -/
theorem resolveValue_mem {key : String} {data : SrcData} {l : List String}
    (h : resolveValue key data = some l) : ∃ kv, kv ∈ data ∧ kv.2 = l := by
  unfold resolveValue at h
  split at h
  · rename_i kv h1
    injection h with h2
    exact ⟨kv, List.mem_of_find?_eq_some h1, h2⟩
  · split at h
    · rename_i kv h2
      injection h with h3
      exact ⟨kv, List.mem_of_find?_eq_some h2, h3⟩
    · exact absurd h (by simp)

/-- Handling a resolved field with a non-empty value list never takes the
out-of-range branch. -/
theorem bindResolvedField_no_oob (ty : Ty) (tags : List (String × String))
    (iv : List String) (v : Val) (hiv : iv ≠ []) (v' : Val) :
    bindResolvedField ty tags iv v ≠ .fail v' (.goPanic "index out of range") := by
  rcases iv with _ | ⟨v0, ivs⟩
  · exact absurd rfl hiv
  · simp only [bindResolvedField, List.head?]
    rcases hu : unmarshalField ty v0 v with ⟨ok, v1, e1⟩
    cases ok
    · -- the hook did not handle the field
      simp only [Bool.false_eq_true, if_false]
      split
      · -- slice path
        split
        · rename_i elemT heq
          rcases hc : convertSlice elemT (v0 :: ivs) with e2 | elems
          · intro hco
            injection hco with _ he
            exact convertSlice_no_goPanic elemT (v0 :: ivs) "index out of range"
              (by rw [hc, he])
          · simp
        · intro hco
          injection hco with _ he
          exact absurd he (by decide)
      · -- time or scalar path
        split
        · rcases ht : setTimeField v0 tags v1 with ⟨v2, e2⟩
          cases e2 with
          | some e =>
            intro hco
            injection hco with _ he
            have := setTimeField_no_goPanic v0 tags v1 "index out of range"
            rw [ht] at this
            exact this (by rw [he])
          | none => simp
        · rcases hw : setWithProperType ty v0 v1 with ⟨v2, e2⟩
          cases e2 with
          | some e =>
            intro hco
            injection hco with _ he
            have := setWithProperType_no_goPanic ty v0 v1 "index out of range"
            rw [hw] at this
            exact this (by rw [he])
          | none => simp
    · -- the hook handled the field
      cases e1 with
      | some e =>
        intro hco
        injection hco with _ he
        have := unmarshalField_no_goPanic ty v0 v "index out of range"
        rw [hu] at this
        exact this (by rw [he])
      | none => simp

/-- The walker never takes the out-of-range branch when every value list of
the source map is non-empty (auxiliary form, by strong induction for the
nested-struct recursion). -/
theorem bindFields_no_oob_aux :
    ∀ (N : Nat) (fields : List FieldDesc), sizeOf fields ≤ N →
      ∀ (vals : List Val) (data : SrcData) (tag : String),
        (∀ kv ∈ data, kv.2 ≠ ([] : List String)) →
        (bindFields data tag fields vals).2 ≠ some (.goPanic "index out of range") := by
  intro N
  induction N with
  | zero =>
    intro fields h
    exact absurd h (by cases fields <;> simp)
  | succ N ih =>
    intro fields hsz vals data tag hdata
    cases fields with
    | nil =>
      rw [bindFields.eq_def]
      simp
    | cons f fs =>
      cases vals with
      | nil =>
        rcases f with ⟨name, tags, ty, st⟩
        rw [bindFields.eq_def]
        simp
      | cons v vs =>
        rcases f with ⟨name, tags, ty, st⟩
        have hfs : sizeOf fs ≤ N := by
          simp at hsz
          omega
        rw [bindFields.eq_def]
        dsimp only
        cases st with
        | false =>
          simp only [Bool.false_eq_true, if_false]
          exact ih fs hfs vs data tag hdata
        | true =>
          rw [if_pos rfl]
          by_cases hcond : (tagGet tags tag = "" ∧ (bindUnmarshaler ty).isNone = true ∧
              kindOf ty = GoKind.kStruct)
          · rw [if_pos hcond]
            obtain ⟨hc1, hc2, hc3⟩ := hcond
            cases ty <;> simp only [kindOf] at hc3 <;> try exact absurd hc3 (by decide)
            · -- time
              exact ih fs hfs vs data tag hdata
            · -- struct
              rename_i innerF
              have hinner : sizeOf innerF ≤ N := by
                simp at hsz
                omega
              cases v with
              | vStruct innerV =>
                rcases hin : bindFields data tag innerF innerV with ⟨iv', e⟩
                cases e with
                | some err =>
                  simp only [hin]
                  intro hco
                  injection hco with he
                  have := ih innerF hinner innerV data tag hdata
                  rw [hin] at this
                  exact this (by rw [he])
                | none =>
                  simp only [hin]
                  exact ih fs hfs vs data tag hdata
              | _ => simp
          · rw [if_neg hcond]
            rcases hres : resolveValue
                (if tagGet tags tag = "" then name else tagGet tags tag) data with _ | iv
            · dsimp only
              exact ih fs hfs vs data tag hdata
            · have hiv : iv ≠ [] := by
                rcases resolveValue_mem hres with ⟨kv, hkv, rfl⟩
                exact hdata kv hkv
              change (match bindResolvedField ty tags iv v with
                | StepRes.fail v' e => (v' :: vs, some e)
                | StepRes.halt v' => (v' :: vs, none)
                | StepRes.cont v' => (v' :: (bindFields data tag fs vs).1,
                    (bindFields data tag fs vs).2)).2 ≠ some (Err.goPanic "index out of range")
              rcases hb : bindResolvedField ty tags iv v with v' | v' | ⟨v', e⟩
              · exact ih fs hfs vs data tag hdata
              · simp
              · intro hco
                injection hco with he
                have := bindResolvedField_no_oob ty tags iv v hiv v'
                rw [hb] at this
                exact this (by rw [he])

/-- **C10.** When every key present in the source map carries at least one
value (the data model's "one or more string values" precondition), every
first-element access the walker performs — for the unmarshal hook, the
timestamp path and the scalar path — is in bounds: the embedding's
out-of-range branch (`goPanic "index out of range"`, modelling the Go panic
on `inputValue[0]`) is unreachable; the sequence path's per-index accesses
are structural over the value list and in bounds by construction.  Second
conjunct: with the precondition dropped, a resolved key with an empty value
list does reach the out-of-range branch. -/
theorem no_oob_access :
    (∀ (t : Ty) (v : Val) (data : SrcData) (tag : String),
       (∀ kv ∈ data, kv.2 ≠ ([] : List String)) →
       (bindData t v data tag).2 ≠ some (.goPanic "index out of range"))
    ∧ bindData (.struct [.mk "F" [] (.int 64) true]) (.vStruct [.vInt 0]) [("F", [])] "query"
      = (.vStruct [.vInt 0], some (.goPanic "index out of range")) := by
  constructor
  · intro t v data tag hdata
    cases t with
    | struct fields =>
      cases v with
      | vStruct vals =>
        simp only [bindData]
        exact bindFields_no_oob_aux (sizeOf fields) fields le_rfl vals data tag hdata
      | _ => simp [bindData]
    | time => simp [bindData]
    | _ => simp [bindData]
  · simp +decide [bindData, bindFields, bindResolvedField, resolveValue, tagGet,
      bindUnmarshaler, kindOf]

/-- Witness for C10's quantified part at a concrete record and map. -/
theorem no_oob_access_witness :
    (bindData (.struct [.mk "A" [] (.int 64) true]) (.vStruct [.vInt 0])
      [("A", ["1"])] "query").2 ≠ some (.goPanic "index out of range") :=
  no_oob_access.1 (.struct [.mk "A" [] (.int 64) true]) (.vStruct [.vInt 0])
    [("A", ["1"])] "query" (by decide)

end EchoBind
